import Mathlib

/-!
Verification development for the SPARK `GamePage` turn engine
(`src/apps/web/src/pages/GamePage.tsx`).

The component is a single-threaded, event-driven React component.  We
embed its `useState` fields as one `GameState` record and each event
handler (user input, WebSocket event, timer tick, timeout continuation)
as a pure function `GameState → ... → GameState`.  `setTimeout`
continuations are modelled as explicit "deferred step" functions that a
theorem chains after the synchronous phase, with the scheduled delay (in
milliseconds) recorded in the returned schedule descriptor.

The reward function `calculateXPChange` is imported by the page from
`../types`, which is outside the sources; the spec describes it only as
an external XP-transfer policy `f(won, localXP, opponentXP)`, so every
function that needs it takes it as an explicit parameter
`calcXP : Bool → Int → Int → Int`.
-/

/-- Tic-Tac-Toe mark, the `"X" | "O"` strings of the source. -/
inductive Mark
| X
| O
deriving Repr, DecidableEq

/-- Connect-Four token colour, the `"red" | "yellow"` strings of the source. -/
inductive C4Color
| red
| yellow
deriving Repr, DecidableEq

/-- Server-assigned side identity, the `"a" | "b"` strings of the source. -/
inductive Side
| a
| b
deriving Repr, DecidableEq

/-- Which game the page is showing (`game.name` in the source). -/
inductive GameName
| ttt
| connectFour
| rps
| chess
deriving Repr, DecidableEq

/-- Play mode prop: `"free" | "stake"`. -/
inductive PlayMode
| free
| stake
deriving Repr, DecidableEq

/-- Opponent type prop: `"player" | "ai"`. -/
inductive OpponentType
| player
| ai
deriving Repr, DecidableEq

/-- Role prop: `"p1" | "p2"`. -/
inductive Role
| p1
| p2
deriving Repr, DecidableEq

/-- Match outcome relative to the local participant
(`"player" | "opponent" | "draw"`). -/
inductive GameWinner
| player
| opponent
| draw
deriving Repr, DecidableEq

/-- Session phase (`gameState` useState): `"playing" | "finished"`. -/
inductive Phase
| playing
| finished
deriving Repr, DecidableEq

/-- Rock-paper-scissors choice. -/
inductive RPSChoice
| rock
| paper
| scissors
deriving Repr, DecidableEq

/-- RPS round verdict (`"win" | "lose" | "draw"`). -/
inductive RoundResult
| win
| lose
| draw
deriving Repr, DecidableEq

/-- The component state: the props the handlers read plus every `useState`
cell they touch.  Wallet addresses are abstracted to `Nat` identifiers
(`address`, `GameEndEvent.winnerAddr`); `hasClient` models whether
`gameClient` is non-null. -/
structure GameState where
  game : GameName
  stakeAmount : Int
  playMode : PlayMode
  opponentType : OpponentType
  role : Option Role
  address : Option Nat
  hasClient : Bool
  turnTime : Nat
  gameState : Phase
  winner : Option GameWinner
  earnedARK : Int
  earnedXP : Int
  walletXP : Int
  opponentXP : Int
  started : Bool
  pendingWinnerSide : Option Side
  side : Option Side
  tttBoard : List (Option Mark)
  tttCurrentPlayer : Mark
  playerMoves : List Nat
  opponentMoves : List Nat
  fadingCell : Option Nat
  c4Board : List (Option C4Color)
  c4CurrentPlayer : C4Color
  c4DroppingToken : Option (Nat × Nat)
  c4RoundCount : Nat
  rpsPlayerChoice : Option RPSChoice
  rpsOpponentChoice : Option RPSChoice
  rpsPlayerScore : Nat
  rpsOpponentScore : Nat
  rpsCurrentRound : Nat
  rpsRoundResult : Option RoundResult
  rpsRevealing : Bool
  rpsWaitingForOpponent : Bool
deriving Repr, DecidableEq

/-- Embeds `playerSymbol`: `side ? (side === "a" ? "X" : "O") : (role === "p2" ? "O" : "X")`. -/
def playerSymbol (s : GameState) : Mark :=
  match s.side with
  | some Side.a => Mark.X
  | some Side.b => Mark.O
  | none => if s.role = some Role.p2 then Mark.O else Mark.X

/-- Embeds `opponentSymbol`: the other mark. -/
def opponentSymbol (s : GameState) : Mark :=
  if playerSymbol s = Mark.X then Mark.O else Mark.X

/-- Embeds `playerColor`: `side ? (side === "a" ? "red" : "yellow") : (role === "p2" ? "yellow" : "red")`. -/
def playerColor (s : GameState) : C4Color :=
  match s.side with
  | some Side.a => C4Color.red
  | some Side.b => C4Color.yellow
  | none => if s.role = some Role.p2 then C4Color.yellow else C4Color.red

/-- Embeds `opponentColor`: the other colour. -/
def opponentColor (s : GameState) : C4Color :=
  if playerColor s = C4Color.red then C4Color.yellow else C4Color.red

/-- Embeds `handleGameEnd` (GamePage.tsx:415-466), the pure state part: record the
winner, transition to `finished`, and compute the reward deltas.  In stake
mode `arkReward = won ? stakeAmount * 2 : -stakeAmount` and
`xpChange = calculateXPChange(won, xp, opponentXP)` (with `addXP(xpChange)`
applied to the wallet); in free mode both deltas are zero.  The backend
submission and WebSocket close have no effect on this state. -/
def handleGameEnd (calcXP : Bool → Int → Int → Int) (s : GameState)
    (gw : GameWinner) : GameState :=
  let s1 := { s with winner := some gw, gameState := Phase.finished }
  if s1.playMode = PlayMode.stake then
    let won : Bool := gw = GameWinner.player
    let xpChange := calcXP won s1.walletXP s1.opponentXP
    let arkReward : Int := if won then s1.stakeAmount * 2 else - s1.stakeAmount
    { s1 with earnedXP := xpChange, earnedARK := arkReward,
              walletXP := s1.walletXP + xpChange }
  else
    { s1 with earnedXP := 0, earnedARK := 0 }

/-- Gates that suspend the turn timer (the non-phase disjuncts of the
guard at GamePage.tsx:368). -/
def animationGate (s : GameState) : Bool :=
  s.fadingCell.isSome || s.c4DroppingToken.isSome ||
    s.rpsWaitingForOpponent || s.rpsRevealing

/-- One tick of the turn timer (the `setInterval` body, GamePage.tsx:367-398).
The effect is not installed at all when the game is finished or an
animation/reveal gate is active, so a tick is then a no-op.  At
`turnTime ≤ 1` the clocked symbol/colour is resolved (hard-coded
`X`/`red` ↦ local-player loss) and the timer is zeroed; otherwise the
timer decrements. -/
def tick (calcXP : Bool → Int → Int → Int) (s : GameState) : GameState :=
  if s.gameState = Phase.finished ∨ animationGate s then s
  else if s.turnTime ≤ 1 then
    let s1 :=
      if s.game = GameName.ttt then
        if s.tttCurrentPlayer = Mark.X then handleGameEnd calcXP s GameWinner.opponent
        else handleGameEnd calcXP s GameWinner.player
      else if s.game = GameName.connectFour then
        if s.c4CurrentPlayer = C4Color.red then handleGameEnd calcXP s GameWinner.opponent
        else handleGameEnd calcXP s GameWinner.player
      else if s.game = GameName.rps then handleGameEnd calcXP s GameWinner.opponent
      else s
    { s1 with turnTime := 0 }
  else { s with turnTime := s.turnTime - 1 }

/-- The eight canonical Tic-Tac-Toe lines, in the source's scan order. -/
def tttLines : List (Nat × Nat × Nat) :=
  [(0, 1, 2), (3, 4, 5), (6, 7, 8),
   (0, 3, 6), (1, 4, 7), (2, 5, 8),
   (0, 4, 8), (2, 4, 6)]

/-- Embeds `checkTTTWinner` (GamePage.tsx:542-555): first line whose three cells
are occupied and identical, in fixed scan order. -/
def checkTTTWinner (squares : List (Option Mark)) : Option Mark :=
  tttLines.findSome? fun (a, b, c) =>
    match squares.getD a none with
    | none => none
    | some m =>
        if squares.getD b none = some m ∧ squares.getD c none = some m then some m
        else none

/-- Deferred work scheduled by a Tic-Tac-Toe step: either the 400 ms
evict-then-place continuation or the 700 ms AI move. -/
inductive TTTNext
| evict (oldest target delayMs : Nat)
| aiTurn (delayMs : Nat)
deriving Repr, DecidableEq

/-- The cell button's `disabled` gate (GamePage.tsx:1056) composed with
`handleTTTCellClick` (GamePage.tsx:557-628), synchronous part.  In
multiplayer the move is sent and only the perceived turn flips; in local
mode with 3 pieces the oldest move starts fading and the
evict-then-place continuation is scheduled 400 ms later; with fewer than
3 pieces the mark is placed immediately, the win is checked on the new
board, and on no win the turn switches (AI move scheduled after 700 ms). -/
def handleTTTCellClick (calcXP : Bool → Int → Int → Int) (s : GameState)
    (idx : Nat) : GameState × Option TTTNext :=
  if s.gameState = Phase.finished ∨ s.started = false ∨
      s.tttCurrentPlayer ≠ playerSymbol s ∨ s.fadingCell ≠ none then (s, none)
  else if s.started = false ∨ s.tttBoard.getD idx none ≠ none ∨
      s.tttCurrentPlayer ≠ playerSymbol s ∨ s.fadingCell ≠ none then (s, none)
  else if s.opponentType = OpponentType.player then
    (if s.hasClient then { s with tttCurrentPlayer := opponentSymbol s } else s, none)
  else if 3 ≤ s.playerMoves.length then
    ({ s with fadingCell := some (s.playerMoves.headD 0) },
     some (TTTNext.evict (s.playerMoves.headD 0) idx 400))
  else
    let newBoard := s.tttBoard.set idx (some (playerSymbol s))
    let s1 := { s with tttBoard := newBoard, playerMoves := s.playerMoves ++ [idx] }
    if checkTTTWinner newBoard = some (playerSymbol s) then
      (handleGameEnd calcXP s1 GameWinner.player, none)
    else
      ({ s1 with tttCurrentPlayer := opponentSymbol s, turnTime := 30 },
       if s.opponentType = OpponentType.ai then some (TTTNext.aiTurn 700) else none)

/-- The 400 ms continuation of the player's 4th placement
(GamePage.tsx:581-605): remove the oldest mark, place the new one, drop
the oldest history entry and append the new cell, then run win detection
on the post-eviction board.  The source's closure captures the board and
history from click time; with the fade gate holding no other mutation
runs in between, so they equal the current state's fields here. -/
def tttEvictPlace (calcXP : Bool → Int → Int → Int) (s : GameState)
    (oldest target : Nat) : GameState × Option TTTNext :=
  let updatedBoard := (s.tttBoard.set oldest none).set target (some (playerSymbol s))
  let s1 := { s with tttBoard := updatedBoard, fadingCell := none,
                     playerMoves := s.playerMoves.tail ++ [target] }
  if checkTTTWinner updatedBoard = some (playerSymbol s) then
    (handleGameEnd calcXP s1 GameWinner.player, none)
  else
    ({ s1 with tttCurrentPlayer := opponentSymbol s, turnTime := 30 },
     if s.opponentType = OpponentType.ai then some (TTTNext.aiTurn 700) else none)

/-- Indices of the empty cells of a board, as computed at the top of
`makeAIMove` (GamePage.tsx:632-634). -/
def emptySpots (board : List (Option Mark)) : List Nat :=
  (List.range board.length).filter fun i => board.getD i none = none

/-- Body of `makeAIMove`'s 700 ms timeout (GamePage.tsx:630-688).  The
randomly chosen empty cell is passed in as `aiMove`; `currentBoard` and
`currentOpponentMoves` are the closure-captured arguments.  With 3 AI
pieces the oldest starts fading and the 400 ms evict-then-place
continuation is scheduled; otherwise the `"O"` is placed immediately and
the win checked on the new board. -/
def makeAIMoveStep (calcXP : Bool → Int → Int → Int) (s : GameState)
    (currentBoard : List (Option Mark)) (currentOpponentMoves : List Nat)
    (aiMove : Nat) : GameState × Option TTTNext :=
  if (emptySpots currentBoard).length = 0 then (s, none)
  else if 3 ≤ currentOpponentMoves.length then
    ({ s with fadingCell := some (currentOpponentMoves.headD 0) },
     some (TTTNext.evict (currentOpponentMoves.headD 0) aiMove 400))
  else
    let updatedBoard := currentBoard.set aiMove (some Mark.O)
    let s1 := { s with tttBoard := updatedBoard,
                       opponentMoves := currentOpponentMoves ++ [aiMove] }
    if checkTTTWinner updatedBoard = some Mark.O then
      (handleGameEnd calcXP s1 GameWinner.opponent, none)
    else
      ({ s1 with tttCurrentPlayer := Mark.X, turnTime := 30 }, none)

/-- The 400 ms continuation of the AI's 4th placement (GamePage.tsx:647-668):
evict the oldest `"O"`, place the new one, update the history, and run win
detection on the post-eviction board. -/
def aiEvictPlace (calcXP : Bool → Int → Int → Int) (s : GameState)
    (currentBoard : List (Option Mark)) (currentOpponentMoves : List Nat)
    (aiMove : Nat) : GameState :=
  let oldest := currentOpponentMoves.headD 0
  let updatedBoard := (currentBoard.set oldest none).set aiMove (some Mark.O)
  let s1 := { s with tttBoard := updatedBoard, fadingCell := none,
                     opponentMoves := currentOpponentMoves.tail ++ [aiMove] }
  if checkTTTWinner updatedBoard = some Mark.O then
    handleGameEnd calcXP s1 GameWinner.opponent
  else
    { s1 with tttCurrentPlayer := Mark.X, turnTime := 30 }

/-- Helper for `checkC4Winner`: a 4-in-a-row starting at `idx` with index
stride `step` (1 horizontal, 7 vertical, 8 diagonal down-right,
6 diagonal down-left). -/
def c4LineAt (board : List (Option C4Color)) (idx step : Nat) : Option C4Color :=
  match board.getD idx none with
  | none => none
  | some m =>
      if board.getD (idx + step) none = some m ∧
          board.getD (idx + 2 * step) none = some m ∧
          board.getD (idx + 3 * step) none = some m then some m
      else none

/-- Embeds `checkC4Winner` (GamePage.tsx:701-766): horizontal, vertical and both
diagonal scans over the 7×6 board, in the source's scan order, reporting
the first 4-in-a-row found. -/
def checkC4Winner (board : List (Option C4Color)) : Option C4Color :=
  let horiz := (List.range 6).flatMap fun row => (List.range 4).map fun col => (row * 7 + col, 1)
  let vert := (List.range 7).flatMap fun col => (List.range 3).map fun row => (row * 7 + col, 7)
  let diagDR := (List.range 3).flatMap fun row => (List.range 4).map fun col => (row * 7 + col, 8)
  let diagDL := (List.range 3).flatMap fun row => (List.range 4).map fun col => (row * 7 + (col + 3), 6)
  (horiz ++ vert ++ diagDR ++ diagDL).findSome? fun p => c4LineAt board p.1 p.2

/-- Landing row for a Connect-Four drop (GamePage.tsx:774-782): scan rows
5 down to 0 and take the first whose cell in `col` is empty. -/
def c4TargetRow (board : List (Option C4Color)) (col : Nat) : Option Nat :=
  (List.range 6).reverse.find? fun r => board.getD (r * 7 + col) none = none

/-- Deferred work scheduled by a Connect-Four click: the 500 ms drop
resolution for the token landing at `(col, row)`. -/
inductive C4Next
| drop (col row delayMs : Nat)
deriving Repr, DecidableEq

/-- The column button's `disabled` gate (GamePage.tsx:1119) composed with
`handleC4ColumnClick` (GamePage.tsx:768-832), synchronous part.  A full
column is a no-op; in multiplayer the column is sent and only the
perceived turn flips; in local mode the drop animation starts and the
500 ms resolution is scheduled. -/
def handleC4ColumnClick (s : GameState) (col : Nat) : GameState × Option C4Next :=
  if s.gameState = Phase.finished ∨ s.c4CurrentPlayer ≠ playerColor s ∨
      s.c4DroppingToken ≠ none then (s, none)
  else if s.started = false ∨ s.c4CurrentPlayer ≠ playerColor s ∨
      s.c4DroppingToken ≠ none then (s, none)
  else
    match c4TargetRow s.c4Board col with
    | none => (s, none)
    | some row =>
        if s.opponentType = OpponentType.player then
          (if s.hasClient then { s with c4CurrentPlayer := opponentColor s } else s, none)
        else
          ({ s with c4DroppingToken := some (col, row) }, some (C4Next.drop col row 500))

/-- The 500 ms continuation of the local player's drop
(GamePage.tsx:798-831): place the token, check the win, and on a full
board with no winner schedule the round reset 2000 ms later (the `Bool`
of the result).  The AI trigger in the final branch is a further
deferred step, modelled by `makeC4AIMoveStep`. -/
def c4ResolveDrop (calcXP : Bool → Int → Int → Int) (s : GameState)
    (col row : Nat) : GameState × Bool :=
  let newBoard := s.c4Board.set (row * 7 + col) (some (playerColor s))
  let s1 := { s with c4Board := newBoard, c4DroppingToken := none }
  if checkC4Winner newBoard = some (playerColor s) then
    (handleGameEnd calcXP s1 GameWinner.player, false)
  else if newBoard.all Option.isSome then (s1, true)
  else ({ s1 with c4CurrentPlayer := opponentColor s, turnTime := 30 }, false)

/-- The 2000 ms full-board round reset (GamePage.tsx:816-821 and its AI
twin 884-889): empty board, round counter incremented, turn owner back
to the fixed starting side `red`, timer back to 30. -/
def c4RoundReset (s : GameState) : GameState :=
  { s with c4Board := List.replicate 42 none,
           c4RoundCount := s.c4RoundCount + 1,
           c4CurrentPlayer := C4Color.red,
           turnTime := 30 }

/-- The 500 ms drop resolution inside `makeC4AIMove` (GamePage.tsx:866-895):
place the hard-coded `"yellow"` token on the closure-captured
`currentBoard`, check the win, and on a full board with no winner
schedule the round reset (the `Bool` of the result). -/
def c4AIResolveDrop (calcXP : Bool → Int → Int → Int) (s : GameState)
    (currentBoard : List (Option C4Color)) (col row : Nat) : GameState × Bool :=
  let newBoard := currentBoard.set (row * 7 + col) (some C4Color.yellow)
  let s1 := { s with c4Board := newBoard, c4DroppingToken := none }
  if checkC4Winner newBoard = some C4Color.yellow then
    (handleGameEnd calcXP s1 GameWinner.opponent, false)
  else if newBoard.all Option.isSome then (s1, true)
  else ({ s1 with c4CurrentPlayer := C4Color.red, turnTime := 30 }, false)

/-- The RPS choice buttons are rendered only while neither
`rpsWaitingForOpponent` nor `rpsRevealing` holds (GamePage.tsx:1310) and
are `disabled` once finished (GamePage.tsx:1318); composed with the
synchronous part of `handleRPSChoice` (GamePage.tsx:925-933): commit the
local choice and enter the waiting state (the multiplayer send and the
AI simulation are later deferred steps). -/
def handleRPSChoice (s : GameState) (choice : RPSChoice) : GameState :=
  if s.gameState = Phase.finished ∨ s.rpsWaitingForOpponent ∨ s.rpsRevealing then s
  else { s with rpsPlayerChoice := some choice, rpsWaitingForOpponent := true }

/-- Payload of the `game_end` transport event (GamePage.tsx:203-220):
either an explicit draw flag, or the winning side, or a winner wallet
identity compared against the local address. -/
structure GameEndEvent where
  isDraw : Bool
  winnerSide : Option Side
  winnerAddr : Option Nat
deriving Repr, DecidableEq

/-- Embeds `onGameEnd` (GamePage.tsx:203-220): draws end immediately; a winning
side is resolved against the local side when known and buffered in
`pendingWinnerSide` otherwise; the wallet-identity fallback compares
against `address`. -/
def onGameEnd (calcXP : Bool → Int → Int → Int) (s : GameState)
    (e : GameEndEvent) : GameState :=
  if e.isDraw then handleGameEnd calcXP s GameWinner.draw
  else
    match e.winnerSide with
    | some ws =>
        match s.side with
        | some sd =>
            handleGameEnd calcXP s
              (if ws = sd then GameWinner.player else GameWinner.opponent)
        | none => { s with pendingWinnerSide := some ws }
    | none =>
        if e.winnerAddr = s.address then handleGameEnd calcXP s GameWinner.player
        else handleGameEnd calcXP s GameWinner.opponent

/-- Payload of the `start` transport event. -/
structure StartEvent where
  side : Option Side
  current : Side
  startAt : Option Nat
deriving Repr, DecidableEq

/-- Embeds `onStart` (GamePage.tsx:221-235): record the assigned side, set both
games' turn owners from the server's current side, mark the match
started, and either resync the timer from the start timestamp
(`Math.max(0, 30 - elapsed)`, which Nat subtraction mirrors for
`now ≥ t`) or reset it to 30. -/
def onStart (s : GameState) (e : StartEvent) (now : Nat) : GameState :=
  let s1 :=
    match e.side with
    | some sd => { s with side := some sd }
    | none => s
  let s2 := { s1 with
    tttCurrentPlayer := if e.current = Side.a then Mark.X else Mark.O,
    c4CurrentPlayer := if e.current = Side.a then C4Color.red else C4Color.yellow,
    started := true }
  match e.startAt with
  | some t => { s2 with turnTime := 30 - (now - t) / 1000 }
  | none => { s2 with turnTime := 30 }

/-- Move history derived from an authoritative board (GamePage.tsx:242-249):
the indices holding the given symbol.  The source pushes indices in
ascending `forEach` order and then sorts; since the pushes are already in
ascending index order the sort is the identity, so the filter below is
the exact result. -/
def deriveMoves (board : List (Option Mark)) (m : Mark) : List Nat :=
  (List.range board.length).filter fun i => board.getD i none = some m

/-- Payload of the authoritative `state` event; the source casts the one
`data.board` per game, modelled as one field per game. -/
structure StateEvent where
  tttBoard : List (Option Mark)
  c4Board : List (Option C4Color)
  current : Side
  timestamp : Option Nat
deriving Repr, DecidableEq

/-- Embeds `onState` (GamePage.tsx:236-265): the authoritative snapshot fully
overwrites the local board, clears any animation state, rederives the
move histories, sets the turn owner from the server side, resyncs the
timer from the server timestamp when present, and marks the match
started. -/
def onState (s : GameState) (e : StateEvent) (now : Nat) : GameState :=
  let s1 :=
    if s.game = GameName.ttt then
      { s with tttBoard := e.tttBoard,
               playerMoves := deriveMoves e.tttBoard (playerSymbol s),
               opponentMoves := deriveMoves e.tttBoard (opponentSymbol s),
               fadingCell := none,
               tttCurrentPlayer := if e.current = Side.a then Mark.X else Mark.O }
    else if s.game = GameName.connectFour then
      { s with c4Board := e.c4Board, c4DroppingToken := none,
               c4CurrentPlayer := if e.current = Side.a then C4Color.red else C4Color.yellow }
    else s
  let s2 :=
    match e.timestamp with
    | some ts => { s1 with turnTime := 30 - (now - ts) / 1000 }
    | none => s1
  { s2 with started := true }

/-- The reactive pending-winner effect (GamePage.tsx:324-329): while the
session is still playing and both a buffered winning side and the local
side are known, resolve the buffered outcome to a local verdict and
clear the buffer. -/
def resolvePendingWinner (calcXP : Bool → Int → Int → Int) (s : GameState) : GameState :=
  if s.gameState = Phase.playing then
    match s.pendingWinnerSide, s.side with
    | some w, some sd =>
        { handleGameEnd calcXP s
            (if w = sd then GameWinner.player else GameWinner.opponent) with
          pendingWinnerSide := none }
    | _, _ => s
  else s

/-- A neutral instantiation of the external XP policy, used for concrete
evaluations. -/
def zeroXP : Bool → Int → Int → Int := fun _ _ _ => 0

/-- The initial component state for given props, mirroring the `useState`
initialisers (timer 30, playing, empty boards, `X`/`red` to move,
round 1, opponent XP 800, `started` true unless multiplayer). -/
def initialState (game : GameName) (stakeAmount : Int) (playMode : PlayMode)
    (opponentType : OpponentType) (role : Option Role) (address : Option Nat) :
    GameState where
  game := game
  stakeAmount := stakeAmount
  playMode := playMode
  opponentType := opponentType
  role := role
  address := address
  hasClient := false
  turnTime := 30
  gameState := Phase.playing
  winner := none
  earnedARK := 0
  earnedXP := 0
  walletXP := 0
  opponentXP := 800
  started := opponentType ≠ OpponentType.player
  pendingWinnerSide := none
  side := none
  tttBoard := List.replicate 9 none
  tttCurrentPlayer := Mark.X
  playerMoves := []
  opponentMoves := []
  fadingCell := none
  c4Board := List.replicate 42 none
  c4CurrentPlayer := C4Color.red
  c4DroppingToken := none
  c4RoundCount := 1
  rpsPlayerChoice := none
  rpsOpponentChoice := none
  rpsPlayerScore := 0
  rpsOpponentScore := 0
  rpsCurrentRound := 1
  rpsRoundResult := none
  rpsRevealing := false
  rpsWaitingForOpponent := false

/-- A full Connect-Four board with no 4-in-a-row: colour by
`(col + row / 2) % 2`, which caps every run at 3. -/
def fullNoWinBoard : List (Option C4Color) :=
  (List.range 42).map fun i =>
    if ((i % 7) + (i / 7) / 2) % 2 = 0 then some C4Color.red else some C4Color.yellow

lemma handleGameEnd_gameState (f : Bool → Int → Int → Int) (s : GameState)
    (gw : GameWinner) : (handleGameEnd f s gw).gameState = Phase.finished := by
  unfold handleGameEnd; dsimp only; split <;> rfl

lemma handleGameEnd_winner (f : Bool → Int → Int → Int) (s : GameState)
    (gw : GameWinner) : (handleGameEnd f s gw).winner = some gw := by
  unfold handleGameEnd; dsimp only; split <;> rfl

lemma handleGameEnd_pendingWinnerSide (f : Bool → Int → Int → Int) (s : GameState)
    (gw : GameWinner) : (handleGameEnd f s gw).pendingWinnerSide = s.pendingWinnerSide := by
  unfold handleGameEnd; dsimp only; split <;> rfl

lemma handleGameEnd_tttBoard (f : Bool → Int → Int → Int) (s : GameState)
    (gw : GameWinner) : (handleGameEnd f s gw).tttBoard = s.tttBoard := by
  unfold handleGameEnd; dsimp only; split <;> rfl

lemma handleGameEnd_c4Board (f : Bool → Int → Int → Int) (s : GameState)
    (gw : GameWinner) : (handleGameEnd f s gw).c4Board = s.c4Board := by
  unfold handleGameEnd; dsimp only; split <;> rfl

lemma handleGameEnd_playerMoves (f : Bool → Int → Int → Int) (s : GameState)
    (gw : GameWinner) : (handleGameEnd f s gw).playerMoves = s.playerMoves := by
  unfold handleGameEnd; dsimp only; split <;> rfl

lemma handleGameEnd_opponentMoves (f : Bool → Int → Int → Int) (s : GameState)
    (gw : GameWinner) : (handleGameEnd f s gw).opponentMoves = s.opponentMoves := by
  unfold handleGameEnd; dsimp only; split <;> rfl

lemma handleGameEnd_side (f : Bool → Int → Int → Int) (s : GameState)
    (gw : GameWinner) : (handleGameEnd f s gw).side = s.side := by
  unfold handleGameEnd; dsimp only; split <;> rfl

lemma handleGameEnd_earnedARK_stake (f : Bool → Int → Int → Int) (s : GameState)
    (gw : GameWinner) (h : s.playMode = PlayMode.stake) :
    (handleGameEnd f s gw).earnedARK =
      if gw = GameWinner.player then s.stakeAmount * 2 else - s.stakeAmount := by
  unfold handleGameEnd
  dsimp only
  rw [if_pos (by simpa using h)]
  by_cases hg : gw = GameWinner.player <;> simp [hg]

lemma handleGameEnd_earnedXP_stake (f : Bool → Int → Int → Int) (s : GameState)
    (gw : GameWinner) (h : s.playMode = PlayMode.stake) :
    (handleGameEnd f s gw).earnedXP =
      f (gw = GameWinner.player) s.walletXP s.opponentXP := by
  unfold handleGameEnd
  dsimp only
  rw [if_pos (by simpa using h)]

lemma handleGameEnd_earnedARK_free (f : Bool → Int → Int → Int) (s : GameState)
    (gw : GameWinner) (h : s.playMode = PlayMode.free) :
    (handleGameEnd f s gw).earnedARK = 0 := by
  unfold handleGameEnd
  dsimp only
  rw [if_neg (by simp [h])]

lemma handleGameEnd_earnedXP_free (f : Bool → Int → Int → Int) (s : GameState)
    (gw : GameWinner) (h : s.playMode = PlayMode.free) :
    (handleGameEnd f s gw).earnedXP = 0 := by
  unfold handleGameEnd
  dsimp only
  rw [if_neg (by simp [h])]

lemma getD_set_self {α : Type} (l : List α) (i : Nat) (a d : α) (h : i < l.length) :
    (l.set i a).getD i d = a := by
  induction l generalizing i with
  | nil => simp at h
  | cons x xs ih =>
      cases i with
      | zero => rfl
      | succ n => simpa using ih n (by simpa using h)

lemma getD_set_ne {α : Type} (l : List α) (i j : Nat) (a d : α) (h : i ≠ j) :
    (l.set i a).getD j d = l.getD j d := by
  induction l generalizing i j with
  | nil => rfl
  | cons x xs ih =>
      cases i with
      | zero =>
          cases j with
          | zero => exact absurd rfl h
          | succ m => rfl
      | succ n =>
          cases j with
          | zero => rfl
          | succ m => simpa using ih n m (by omega)

lemma onStart_gameState (s : GameState) (e : StartEvent) (now : Nat) :
    (onStart s e now).gameState = s.gameState := by
  obtain ⟨es, ec, ea⟩ := e
  cases es <;> cases ea <;> rfl

lemma onStart_pendingWinnerSide (s : GameState) (e : StartEvent) (now : Nat) :
    (onStart s e now).pendingWinnerSide = s.pendingWinnerSide := by
  obtain ⟨es, ec, ea⟩ := e
  cases es <;> cases ea <;> rfl

lemma onStart_winner (s : GameState) (e : StartEvent) (now : Nat) :
    (onStart s e now).winner = s.winner := by
  obtain ⟨es, ec, ea⟩ := e
  cases es <;> cases ea <;> rfl

lemma onStart_side_some (s : GameState) (e : StartEvent) (now : Nat) (sd : Side)
    (h : e.side = some sd) : (onStart s e now).side = some sd := by
  obtain ⟨es, ec, ea⟩ := e
  cases es <;> cases ea <;> simp_all [onStart]

/-- Claim C1: a `game_end` event naming a winning side that arrives while
the local side is still unknown is buffered in `pendingWinnerSide` and
changes nothing else; once a `start` event assigns the side and the
session is still playing, the reactive effect resolves the buffered value
to a final local outcome — `Loss` when the buffered side differs from the
assigned side (e.g. winner `"a"`, side `"b"`), `Win` when they agree —
and clears the buffer, so a further run of the effect is a no-op: the
buffered value is resolved exactly once. -/
theorem pending_winner_buffered_and_resolved
    (calcXP : Bool → Int → Int → Int) (s : GameState) (w sd : Side)
    (e : GameEndEvent) (ev : StartEvent) (now : Nat)
    (hside : s.side = none) (hplay : s.gameState = Phase.playing)
    (hdraw : e.isDraw = false) (hw : e.winnerSide = some w)
    (hst : ev.side = some sd) :
    onGameEnd calcXP s e = { s with pendingWinnerSide := some w } ∧
    (onGameEnd calcXP s e).gameState = Phase.playing ∧
    (resolvePendingWinner calcXP
        (onStart { s with pendingWinnerSide := some w } ev now)).gameState =
      Phase.finished ∧
    (resolvePendingWinner calcXP
        (onStart { s with pendingWinnerSide := some w } ev now)).pendingWinnerSide =
      none ∧
    (resolvePendingWinner calcXP
        (onStart { s with pendingWinnerSide := some w } ev now)).winner =
      some (if w = sd then GameWinner.player else GameWinner.opponent) ∧
    resolvePendingWinner calcXP
        (resolvePendingWinner calcXP
          (onStart { s with pendingWinnerSide := some w } ev now)) =
      resolvePendingWinner calcXP
        (onStart { s with pendingWinnerSide := some w } ev now) := by
  have h1 : onGameEnd calcXP s e = { s with pendingWinnerSide := some w } := by
    unfold onGameEnd
    rw [hw, hside]
    simp [hdraw]
  have hS1g : (onStart { s with pendingWinnerSide := some w } ev now).gameState =
      Phase.playing := by
    rw [onStart_gameState]; exact hplay
  have hS1p : (onStart { s with pendingWinnerSide := some w } ev now).pendingWinnerSide =
      some w := by
    rw [onStart_pendingWinnerSide]
  have hS1s : (onStart { s with pendingWinnerSide := some w } ev now).side = some sd :=
    onStart_side_some _ _ _ _ hst
  have hres : resolvePendingWinner calcXP
      (onStart { s with pendingWinnerSide := some w } ev now) =
      { handleGameEnd calcXP (onStart { s with pendingWinnerSide := some w } ev now)
          (if w = sd then GameWinner.player else GameWinner.opponent) with
        pendingWinnerSide := none } := by
    unfold resolvePendingWinner
    rw [hS1g, hS1p, hS1s]
    simp
  have hfin : (resolvePendingWinner calcXP
      (onStart { s with pendingWinnerSide := some w } ev now)).gameState =
      Phase.finished := by
    rw [hres]
    exact handleGameEnd_gameState _ _ _
  refine ⟨h1, by rw [h1]; exact hplay, hfin, ?_, ?_, ?_⟩
  · rw [hres]
  · rw [hres]
    exact handleGameEnd_winner _ _ _
  · revert hfin
    generalize resolvePendingWinner calcXP
      (onStart { s with pendingWinnerSide := some w } ev now) = X
    intro hfinX
    unfold resolvePendingWinner
    rw [hfinX]
    simp

/-- Witness for C1: winner side `"a"` buffered before `start` assigns side
`"b"` resolves to a local loss. -/
theorem pending_winner_buffered_and_resolved_witness :
    (resolvePendingWinner zeroXP
        (onStart
          { initialState GameName.ttt 10 PlayMode.stake OpponentType.player none
              (some 7) with
            pendingWinnerSide := some Side.a }
          { side := some Side.b, current := Side.a, startAt := none } 0)).winner =
      some GameWinner.opponent := by
  have h := pending_winner_buffered_and_resolved zeroXP
    (initialState GameName.ttt 10 PlayMode.stake OpponentType.player none (some 7))
    Side.a Side.b
    { isDraw := false, winnerSide := some Side.a, winnerAddr := none }
    { side := some Side.b, current := Side.a, startAt := none } 0
    rfl rfl rfl rfl rfl
  simpa using h.2.2.2.2.1

/-- Claim C7: whenever any animation/reveal gate is active (TTT fade,
Connect-Four token drop, RPS waiting-for-opponent, RPS revealing), a
timer tick is a complete no-op: `remainingSeconds` is unchanged and no
timeout resolution fires. -/
theorem timer_suspended_during_gates (calcXP : Bool → Int → Int → Int)
    (s : GameState) (hgate : animationGate s = true) :
    tick calcXP s = s ∧
    (tick calcXP s).turnTime = s.turnTime ∧
    (tick calcXP s).gameState = s.gameState ∧
    (tick calcXP s).winner = s.winner := by
  have h : tick calcXP s = s := by
    unfold tick
    exact if_pos (Or.inr hgate)
  exact ⟨h, by rw [h], by rw [h], by rw [h]⟩

/-- Witness for C7: a tick during the RPS reveal gate changes nothing. -/
theorem timer_suspended_during_gates_witness :
    tick zeroXP
        { initialState GameName.rps 0 PlayMode.free OpponentType.ai none none with
          rpsRevealing := true } =
      { initialState GameName.rps 0 PlayMode.free OpponentType.ai none none with
        rpsRevealing := true } :=
  (timer_suspended_during_gates zeroXP
    { initialState GameName.rps 0 PlayMode.free OpponentType.ai none none with
      rpsRevealing := true } rfl).1

/-- Claim C8: once the session is `Finished`, every local input — TTT
cell click, Connect-Four column click, RPS choice — is ignored entirely:
the state is unchanged and nothing further is scheduled. -/
theorem finished_input_ignored (calcXP : Bool → Int → Int → Int)
    (s : GameState) (idx col : Nat) (c : RPSChoice)
    (hfin : s.gameState = Phase.finished) :
    handleTTTCellClick calcXP s idx = (s, none) ∧
    handleC4ColumnClick s col = (s, none) ∧
    handleRPSChoice s c = s := by
  refine ⟨?_, ?_, ?_⟩
  · unfold handleTTTCellClick
    exact if_pos (Or.inl hfin)
  · unfold handleC4ColumnClick
    exact if_pos (Or.inl hfin)
  · unfold handleRPSChoice
    exact if_pos (Or.inl hfin)

/-- Witness for C8: clicking cell 0, column 0 and choosing rock in a
finished session are all no-ops. -/
theorem finished_input_ignored_witness :
    handleTTTCellClick zeroXP
        { initialState GameName.ttt 0 PlayMode.free OpponentType.ai none none with
          gameState := Phase.finished } 0 =
      ({ initialState GameName.ttt 0 PlayMode.free OpponentType.ai none none with
         gameState := Phase.finished }, none) ∧
    handleRPSChoice
        { initialState GameName.ttt 0 PlayMode.free OpponentType.ai none none with
          gameState := Phase.finished } RPSChoice.rock =
      { initialState GameName.ttt 0 PlayMode.free OpponentType.ai none none with
        gameState := Phase.finished } := by
  have h := finished_input_ignored zeroXP
    { initialState GameName.ttt 0 PlayMode.free OpponentType.ai none none with
      gameState := Phase.finished } 0 0 RPSChoice.rock rfl
  exact ⟨h.1, h.2.2⟩

/-- Claim C4: on entering `Finished`, a staked session rewards a local
win with `arkDelta = stake × 2` and a local loss with
`arkDelta = -stake`, with `xpDelta = calculateXPChange(won, localXP,
opponentXP)`; for `stake = 10` this is `+20` and `-10`; a free-play
session always yields zero deltas regardless of outcome. -/
theorem staked_reward_deltas (calcXP : Bool → Int → Int → Int)
    (s : GameState) (hstake : s.playMode = PlayMode.stake) :
    (handleGameEnd calcXP s GameWinner.player).earnedARK = s.stakeAmount * 2 ∧
    (handleGameEnd calcXP s GameWinner.opponent).earnedARK = - s.stakeAmount ∧
    (handleGameEnd calcXP s GameWinner.player).earnedXP =
      calcXP true s.walletXP s.opponentXP ∧
    (handleGameEnd calcXP s GameWinner.opponent).earnedXP =
      calcXP false s.walletXP s.opponentXP ∧
    (s.stakeAmount = 10 →
      (handleGameEnd calcXP s GameWinner.player).earnedARK = 20 ∧
      (handleGameEnd calcXP s GameWinner.opponent).earnedARK = -10) ∧
    (∀ (t : GameState) (gw : GameWinner), t.playMode = PlayMode.free →
      (handleGameEnd calcXP t gw).earnedARK = 0 ∧
      (handleGameEnd calcXP t gw).earnedXP = 0) := by
  have hwin : (handleGameEnd calcXP s GameWinner.player).earnedARK =
      s.stakeAmount * 2 := by
    rw [handleGameEnd_earnedARK_stake _ _ _ hstake]
    simp
  have hloss : (handleGameEnd calcXP s GameWinner.opponent).earnedARK =
      - s.stakeAmount := by
    rw [handleGameEnd_earnedARK_stake _ _ _ hstake]
    simp
  refine ⟨hwin, hloss, ?_, ?_, ?_, ?_⟩
  · rw [handleGameEnd_earnedXP_stake _ _ _ hstake]
    simp
  · rw [handleGameEnd_earnedXP_stake _ _ _ hstake]
    simp
  · intro h10
    rw [hwin, hloss, h10]
    norm_num
  · intro t gw hfree
    exact ⟨handleGameEnd_earnedARK_free _ _ _ hfree,
           handleGameEnd_earnedXP_free _ _ _ hfree⟩

/-- Witness for C4: spec scenario with stake 10 — win yields `+20`, loss
yields `-10`, free play yields zero. -/
theorem staked_reward_deltas_witness :
    (handleGameEnd zeroXP
      (initialState GameName.ttt 10 PlayMode.stake OpponentType.ai none none)
      GameWinner.player).earnedARK = 20 ∧
    (handleGameEnd zeroXP
      (initialState GameName.ttt 10 PlayMode.stake OpponentType.ai none none)
      GameWinner.opponent).earnedARK = -10 ∧
    (handleGameEnd zeroXP
      (initialState GameName.ttt 10 PlayMode.free OpponentType.ai none none)
      GameWinner.player).earnedARK = 0 := by
  have h := staked_reward_deltas zeroXP
    (initialState GameName.ttt 10 PlayMode.stake OpponentType.ai none none) rfl
  exact ⟨(h.2.2.2.2.1 rfl).1, (h.2.2.2.2.1 rfl).2,
         (h.2.2.2.2.2 (initialState GameName.ttt 10 PlayMode.free OpponentType.ai
            none none) GameWinner.player rfl).1⟩

lemma handleGameEnd_stake_expand (f : Bool → Int → Int → Int) (s : GameState)
    (gw : GameWinner) (h : s.playMode = PlayMode.stake) :
    handleGameEnd f s gw =
      { s with winner := some gw, gameState := Phase.finished,
               earnedXP := f (gw = GameWinner.player) s.walletXP s.opponentXP,
               earnedARK :=
                 if gw = GameWinner.player then s.stakeAmount * 2
                 else - s.stakeAmount,
               walletXP :=
                 s.walletXP + f (gw = GameWinner.player) s.walletXP s.opponentXP } := by
  unfold handleGameEnd
  dsimp only
  rw [if_pos (show s.playMode = PlayMode.stake from h)]
  by_cases hg : gw = GameWinner.player <;> simp [hg]

/-- Claim C10: in a staked session a draw is rewarded identically to a
loss — `arkDelta = -stake` and `xpDelta = calculateXPChange(false,
localXP, opponentXP)` — because the reward computation branches only on
whether the local player won; the draw result differs from the loss
result only in the recorded winner tag. -/
theorem draw_rewarded_as_loss (calcXP : Bool → Int → Int → Int)
    (s : GameState) (hstake : s.playMode = PlayMode.stake) :
    (handleGameEnd calcXP s GameWinner.draw).earnedARK = - s.stakeAmount ∧
    (handleGameEnd calcXP s GameWinner.draw).earnedXP =
      calcXP false s.walletXP s.opponentXP ∧
    handleGameEnd calcXP s GameWinner.draw =
      { handleGameEnd calcXP s GameWinner.opponent with
        winner := some GameWinner.draw } := by
  refine ⟨?_, ?_, ?_⟩
  · rw [handleGameEnd_earnedARK_stake _ _ _ hstake]
    simp
  · rw [handleGameEnd_earnedXP_stake _ _ _ hstake]
    simp
  · rw [handleGameEnd_stake_expand _ _ _ hstake,
        handleGameEnd_stake_expand _ _ _ hstake]
    simp

/-- Witness for C10: draw with stake 10 costs 10 ARK, exactly like a
loss. -/
theorem draw_rewarded_as_loss_witness :
    (handleGameEnd zeroXP
      (initialState GameName.ttt 10 PlayMode.stake OpponentType.ai none none)
      GameWinner.draw).earnedARK = -10 := by
  have h := draw_rewarded_as_loss zeroXP
    (initialState GameName.ttt 10 PlayMode.stake OpponentType.ai none none) rfl
  simpa using h.1

/-- Failing input for C3: multiplayer Tic-Tac-Toe, local side `"b"`
(symbol `O`), with `X` — the opponent — on the clock at one remaining
second. -/
def c3FailingState : GameState :=
  { initialState GameName.ttt 10 PlayMode.stake OpponentType.player none none with
    side := some Side.b, started := true, turnTime := 1 }

set_option maxRecDepth 8000 in
/-- Claim C3, evaluated at the failing input: the timeout branch hard-codes
`X`/`red` as the local player, so with local side `"b"` the clocked mark
`X` belongs to the opponent and yet the tick records `winner = opponent`
— the local player loses although the clocked side should be the loser.
The remaining parts of the claim do hold and are evaluated alongside: a
tick decrements `remainingSeconds` by one, a tick on a finished session
is a no-op (the transition fires exactly once), and from 30 with no
reset the session is `Finished` after 31 ticks. -/
theorem turn_timeout_misassigns_loser_for_side_b :
    playerSymbol c3FailingState = Mark.O ∧
    c3FailingState.tttCurrentPlayer = Mark.X ∧
    (tick zeroXP c3FailingState).gameState = Phase.finished ∧
    (tick zeroXP c3FailingState).winner = some GameWinner.opponent ∧
    (tick zeroXP c3FailingState).turnTime = 0 ∧
    tick zeroXP (tick zeroXP c3FailingState) = tick zeroXP c3FailingState ∧
    tick zeroXP (initialState GameName.ttt 0 PlayMode.free OpponentType.ai none none) =
      { initialState GameName.ttt 0 PlayMode.free OpponentType.ai none none with
        turnTime := 29 } ∧
    ((tick zeroXP)^[31]
        (initialState GameName.ttt 0 PlayMode.free OpponentType.ai none none)).gameState =
      Phase.finished := by
  refine ⟨rfl, rfl, rfl, rfl, rfl, by decide, by decide, by decide⟩

/-- Board state for the C5 witness: the full no-win board with cell 0
(whose colour is red, the local colour) emptied. -/
def c5WitState : GameState :=
  { initialState GameName.connectFour 0 PlayMode.free OpponentType.ai none none with
    c4Board := fullNoWinBoard.set 0 none }

/-- Claim C5: in local Connect-Four, when the placed token fills the last
empty cell and no 4-in-a-row exists, the drop resolution does not end the
match (phase and winner are untouched) and instead schedules the round
reset, which empties the board, increments the round counter by exactly
one, and hands the turn to the fixed starting side red; the AI drop
resolution behaves identically. -/
theorem c4_full_board_resets_round (calcXP : Bool → Int → Int → Int)
    (s : GameState) (col row : Nat)
    (hfull : ((s.c4Board.set (row * 7 + col) (some (playerColor s))).all
        Option.isSome) = true)
    (hnowin : checkC4Winner (s.c4Board.set (row * 7 + col) (some (playerColor s))) =
        none) :
    c4ResolveDrop calcXP s col row =
      ({ s with c4Board := s.c4Board.set (row * 7 + col) (some (playerColor s)),
                c4DroppingToken := none }, true) ∧
    (c4RoundReset (c4ResolveDrop calcXP s col row).1).c4Board =
      List.replicate 42 none ∧
    (c4RoundReset (c4ResolveDrop calcXP s col row).1).c4RoundCount =
      s.c4RoundCount + 1 ∧
    (c4RoundReset (c4ResolveDrop calcXP s col row).1).c4CurrentPlayer =
      C4Color.red ∧
    (c4RoundReset (c4ResolveDrop calcXP s col row).1).gameState = s.gameState ∧
    (c4RoundReset (c4ResolveDrop calcXP s col row).1).winner = s.winner ∧
    (∀ (t : GameState) (b : List (Option C4Color)) (c r : Nat),
      ((b.set (r * 7 + c) (some C4Color.yellow)).all Option.isSome) = true →
      checkC4Winner (b.set (r * 7 + c) (some C4Color.yellow)) = none →
      c4AIResolveDrop calcXP t b c r =
        ({ t with c4Board := b.set (r * 7 + c) (some C4Color.yellow),
                  c4DroppingToken := none }, true)) := by
  have h1 : c4ResolveDrop calcXP s col row =
      ({ s with c4Board := s.c4Board.set (row * 7 + col) (some (playerColor s)),
                c4DroppingToken := none }, true) := by
    unfold c4ResolveDrop
    dsimp only
    rw [if_neg (by rw [hnowin]; simp), if_pos hfull]
  refine ⟨h1, ?_, ?_, ?_, ?_, ?_, ?_⟩
  · rw [h1]
    rfl
  · rw [h1]
    rfl
  · rw [h1]
    rfl
  · rw [h1]
    rfl
  · rw [h1]
    rfl
  · intro t b c r hfull2 hnowin2
    unfold c4AIResolveDrop
    dsimp only
    rw [if_neg (by rw [hnowin2]; simp), if_pos hfull2]

/-- Witness for C5: filling the last cell of the checked no-win board
leaves the session playing, schedules the reset, and the reset empties
the board, bumps the round counter and hands the turn to red. -/
theorem c4_full_board_resets_round_witness :
    (c4ResolveDrop zeroXP c5WitState 0 0).2 = true ∧
    (c4RoundReset (c4ResolveDrop zeroXP c5WitState 0 0).1).c4Board =
      List.replicate 42 none ∧
    (c4RoundReset (c4ResolveDrop zeroXP c5WitState 0 0).1).c4RoundCount =
      c5WitState.c4RoundCount + 1 ∧
    (c4RoundReset (c4ResolveDrop zeroXP c5WitState 0 0).1).c4CurrentPlayer =
      C4Color.red := by
  have h := c4_full_board_resets_round zeroXP c5WitState 0 0 (by decide) (by decide)
  exact ⟨by rw [h.1], h.2.1, h.2.2.1, h.2.2.2.1⟩

/-- Claim C6: in multiplayer mode a legal local move input flips the
perceived turn owner to the opponent while leaving the rest of the state
— in particular the board array — completely unchanged, and the board is
mutated only by an authoritative `state` event, which overwrites the
local board with the server board unconditionally. -/
theorem multiplayer_click_flips_turn_only (calcXP : Bool → Int → Int → Int)
    (s : GameState) (idx col row : Nat)
    (hmp : s.opponentType = OpponentType.player) (hcl : s.hasClient = true)
    (hplay : s.gameState = Phase.playing) (hst : s.started = true)
    (hturn : s.tttCurrentPlayer = playerSymbol s) (hfade : s.fadingCell = none)
    (hempty : s.tttBoard.getD idx none = none)
    (hcturn : s.c4CurrentPlayer = playerColor s) (hdrop : s.c4DroppingToken = none)
    (hrow : c4TargetRow s.c4Board col = some row) :
    handleTTTCellClick calcXP s idx =
      ({ s with tttCurrentPlayer := opponentSymbol s }, none) ∧
    handleC4ColumnClick s col =
      ({ s with c4CurrentPlayer := opponentColor s }, none) ∧
    (∀ (t : GameState) (e : StateEvent) (now : Nat), t.game = GameName.ttt →
      (onState t e now).tttBoard = e.tttBoard) ∧
    (∀ (t : GameState) (e : StateEvent) (now : Nat), t.game = GameName.connectFour →
      (onState t e now).c4Board = e.c4Board) := by
  have hempty' : s.tttBoard[idx]?.getD none = none := by
    simpa [List.getD_eq_getElem?_getD] using hempty
  refine ⟨?_, ?_, ?_, ?_⟩
  · unfold handleTTTCellClick
    rw [if_neg (by simp [hplay, hst, hturn, hfade]),
        if_neg (by simp [hst, hturn, hfade, hempty']),
        if_pos hmp, if_pos hcl]
  · unfold handleC4ColumnClick
    rw [if_neg (by simp [hplay, hcturn, hdrop]),
        if_neg (by simp [hst, hcturn, hdrop]), hrow]
    dsimp only
    rw [if_pos hmp, if_pos hcl]
  · intro t e now hg
    obtain ⟨tb, cb, cur, ts⟩ := e
    cases ts <;> simp [onState, hg]
  · intro t e now hg
    obtain ⟨tb, cb, cur, ts⟩ := e
    cases ts <;> simp [onState, hg]

/-- Witness state for C6: a started multiplayer session on side `"a"`. -/
def c6WitState : GameState :=
  { initialState GameName.ttt 0 PlayMode.free OpponentType.player none none with
    hasClient := true, started := true, side := some Side.a }

/-- Witness for C6: a legal multiplayer cell click only flips the
perceived turn, and a state event overwrites the board. -/
theorem multiplayer_click_flips_turn_only_witness :
    handleTTTCellClick zeroXP c6WitState 0 =
      ({ c6WitState with tttCurrentPlayer := opponentSymbol c6WitState }, none) ∧
    (onState c6WitState
        { tttBoard := [some Mark.O, none, none, none, none, none, none, none, none],
          c4Board := [], current := Side.b, timestamp := none } 0).tttBoard =
      [some Mark.O, none, none, none, none, none, none, none, none] := by
  have h := multiplayer_click_flips_turn_only zeroXP c6WitState 0 0 5
    rfl rfl rfl rfl rfl rfl rfl rfl rfl (by decide)
  exact ⟨h.1, h.2.2.1 c6WitState
    { tttBoard := [some Mark.O, none, none, none, none, none, none, none, none],
      c4Board := [], current := Side.b, timestamp := none } 0 rfl⟩

lemma playerSymbol_set_fading (s : GameState) (c : Option Nat) :
    playerSymbol { s with fadingCell := c } = playerSymbol s := rfl

lemma click_evict_phase1 (calcXP : Bool → Int → Int → Int) (s : GameState)
    (idx h0 m1 m2 : Nat)
    (hplay : s.gameState = Phase.playing) (hst : s.started = true)
    (hloc : s.opponentType = OpponentType.ai)
    (hturn : s.tttCurrentPlayer = playerSymbol s)
    (hfade : s.fadingCell = none)
    (hempty : s.tttBoard.getD idx none = none)
    (hmoves : s.playerMoves = [h0, m1, m2]) :
    handleTTTCellClick calcXP s idx =
      ({ s with fadingCell := some h0 }, some (TTTNext.evict h0 idx 400)) := by
  have hempty' : s.tttBoard[idx]?.getD none = none := by
    simpa [List.getD_eq_getElem?_getD] using hempty
  unfold handleTTTCellClick
  rw [if_neg (by simp [hplay, hst, hturn, hfade]),
      if_neg (by simp [hst, hturn, hfade, hempty']),
      if_neg (by simp [hloc]),
      if_pos (by rw [hmoves]; simp)]
  rw [hmoves]
  rfl

lemma tttEvictPlace_fields (calcXP : Bool → Int → Int → Int) (s : GameState)
    (oldest target : Nat) :
    (tttEvictPlace calcXP s oldest target).1.tttBoard =
      (s.tttBoard.set oldest none).set target (some (playerSymbol s)) ∧
    (tttEvictPlace calcXP s oldest target).1.playerMoves =
      s.playerMoves.tail ++ [target] ∧
    ((tttEvictPlace calcXP s oldest target).1.gameState = Phase.finished ↔
      (s.gameState = Phase.finished ∨
        checkTTTWinner ((s.tttBoard.set oldest none).set target
          (some (playerSymbol s))) = some (playerSymbol s))) := by
  unfold tttEvictPlace
  dsimp only
  by_cases hw : checkTTTWinner ((s.tttBoard.set oldest none).set target
      (some (playerSymbol s))) = some (playerSymbol s)
  · rw [if_pos hw]
    refine ⟨by rw [handleGameEnd_tttBoard], by rw [handleGameEnd_playerMoves], ?_⟩
    rw [handleGameEnd_gameState]
    simp [hw]
  · rw [if_neg hw]
    refine ⟨rfl, rfl, ?_⟩
    simp [hw]

lemma aiMoveStep_evict_phase1 (calcXP : Bool → Int → Int → Int) (t : GameState)
    (b : List (Option Mark)) (k0 k1 k2 am : Nat) (hne : emptySpots b ≠ []) :
    makeAIMoveStep calcXP t b [k0, k1, k2] am =
      ({ t with fadingCell := some k0 }, some (TTTNext.evict k0 am 400)) := by
  unfold makeAIMoveStep
  rw [if_neg (by simpa [List.length_eq_zero] using hne), if_pos (by simp)]
  rfl

lemma aiEvictPlace_fields (calcXP : Bool → Int → Int → Int) (t : GameState)
    (b : List (Option Mark)) (k0 k1 k2 am : Nat) :
    (aiEvictPlace calcXP t b [k0, k1, k2] am).tttBoard =
      (b.set k0 none).set am (some Mark.O) ∧
    (aiEvictPlace calcXP t b [k0, k1, k2] am).opponentMoves = [k1, k2, am] ∧
    ((aiEvictPlace calcXP t b [k0, k1, k2] am).gameState = Phase.finished ↔
      (t.gameState = Phase.finished ∨
        checkTTTWinner ((b.set k0 none).set am (some Mark.O)) = some Mark.O)) := by
  unfold aiEvictPlace
  dsimp only
  simp only [List.headD_cons, List.tail_cons]
  by_cases hw : checkTTTWinner ((b.set k0 none).set am (some Mark.O)) = some Mark.O
  · rw [if_pos hw]
    refine ⟨by rw [handleGameEnd_tttBoard], by simp [handleGameEnd_opponentMoves], ?_⟩
    rw [handleGameEnd_gameState]
    simp [hw]
  · rw [if_neg hw]
    refine ⟨rfl, by simp, ?_⟩
    simp [hw]

/-- Claim C2: in local-mode Tic-Tac-Toe, a 4th mark for a side first marks
that side's oldest mark — the head of its history — as fading and defers
the placement by the 400 ms fade duration; the deferred step removes the
oldest mark and places the new one, and win detection runs exactly on
that post-eviction board, in which the new mark is present and the
evicted cell is empty; the AI's 4th placement behaves identically. -/
theorem ttt_fourth_mark_evicts_head_before_win_check
    (calcXP : Bool → Int → Int → Int) (s : GameState) (idx h0 m1 m2 : Nat)
    (hplay : s.gameState = Phase.playing) (hst : s.started = true)
    (hloc : s.opponentType = OpponentType.ai)
    (hturn : s.tttCurrentPlayer = playerSymbol s)
    (hfade : s.fadingCell = none)
    (hempty : s.tttBoard.getD idx none = none)
    (hmoves : s.playerMoves = [h0, m1, m2])
    (hne : h0 ≠ idx)
    (hh0 : h0 < s.tttBoard.length) (hidx : idx < s.tttBoard.length) :
    handleTTTCellClick calcXP s idx =
      ({ s with fadingCell := some h0 }, some (TTTNext.evict h0 idx 400)) ∧
    (tttEvictPlace calcXP { s with fadingCell := some h0 } h0 idx).1.tttBoard =
      (s.tttBoard.set h0 none).set idx (some (playerSymbol s)) ∧
    ((s.tttBoard.set h0 none).set idx (some (playerSymbol s))).getD h0 none =
      none ∧
    ((s.tttBoard.set h0 none).set idx (some (playerSymbol s))).getD idx none =
      some (playerSymbol s) ∧
    ((tttEvictPlace calcXP { s with fadingCell := some h0 } h0 idx).1.gameState =
        Phase.finished ↔
      checkTTTWinner ((s.tttBoard.set h0 none).set idx (some (playerSymbol s))) =
        some (playerSymbol s)) ∧
    (tttEvictPlace calcXP { s with fadingCell := some h0 } h0 idx).1.playerMoves =
      [m1, m2, idx] ∧
    (∀ (t : GameState) (b : List (Option Mark)) (k0 k1 k2 am : Nat),
      t.gameState = Phase.playing → emptySpots b ≠ [] →
      makeAIMoveStep calcXP t b [k0, k1, k2] am =
        ({ t with fadingCell := some k0 }, some (TTTNext.evict k0 am 400)) ∧
      (aiEvictPlace calcXP { t with fadingCell := some k0 } b [k0, k1, k2]
          am).tttBoard = (b.set k0 none).set am (some Mark.O) ∧
      ((aiEvictPlace calcXP { t with fadingCell := some k0 } b [k0, k1, k2]
          am).gameState = Phase.finished ↔
        checkTTTWinner ((b.set k0 none).set am (some Mark.O)) = some Mark.O)) := by
  have hfields := tttEvictPlace_fields calcXP { s with fadingCell := some h0 } h0 idx
  refine ⟨click_evict_phase1 calcXP s idx h0 m1 m2 hplay hst hloc hturn hfade
    hempty hmoves, hfields.1, ?_, ?_, ?_, ?_, ?_⟩
  · rw [getD_set_ne _ _ _ _ _ (by omega), getD_set_self _ _ _ _ (by simpa using hh0)]
  · rw [getD_set_self _ _ _ _ (by simpa using hidx)]
  · have hps : playerSymbol { s with fadingCell := some h0 } = playerSymbol s := rfl
    rw [hfields.2.2, hps]
    simp [hplay]
  · rw [hfields.2.1]
    simp [hmoves]
  · intro t b k0 k1 k2 am htplay hbne
    have haifields := aiEvictPlace_fields calcXP { t with fadingCell := some k0 }
      b k0 k1 k2 am
    refine ⟨aiMoveStep_evict_phase1 calcXP t b k0 k1 k2 am hbne, haifields.1, ?_⟩
    rw [haifields.2.2]
    simp [htplay]

/-- Witness state for C2: local TTT, X already at cells 0, 2 and 4 in that
placement order, O at 1 and 3, X to click cell 6: the eviction of cell 0
leaves X at 2, 4 and the new 6, which wins on the post-eviction board. -/
def c2WitState : GameState :=
  { initialState GameName.ttt 0 PlayMode.free OpponentType.ai none none with
    tttBoard := [some Mark.X, some Mark.O, some Mark.X, some Mark.O, some Mark.X,
                 none, none, none, none],
    playerMoves := [0, 2, 4], opponentMoves := [1, 3] }

/-- Witness for C2: the concrete 4th placement fades cell 0 with the
400 ms schedule and the deferred step ends the game because the
post-eviction board (X at 2, 4, 6) wins. -/
theorem ttt_fourth_mark_evicts_head_before_win_check_witness :
    handleTTTCellClick zeroXP c2WitState 6 =
      ({ c2WitState with fadingCell := some 0 }, some (TTTNext.evict 0 6 400)) ∧
    (tttEvictPlace zeroXP { c2WitState with fadingCell := some 0 } 0 6).1.gameState =
      Phase.finished := by
  have h := ttt_fourth_mark_evicts_head_before_win_check zeroXP c2WitState 6 0 2 4
    rfl rfl rfl rfl rfl (by decide) rfl (by decide) (by decide) (by decide)
  exact ⟨h.1, (h.2.2.2.2.1).mpr (by decide)⟩

lemma countP_range_getD {α : Type} (l : List α) (q : α → Bool) (d : α) :
    (List.range l.length).countP (fun i => q (l.getD i d)) = l.countP q := by
  induction l with
  | nil => rfl
  | cons x xs ih =>
      rw [List.length_cons, List.range_succ_eq_map, List.countP_cons,
          List.countP_map, List.countP_cons]
      have h1 : ((fun i => q ((x :: xs).getD i d)) ∘ Nat.succ) =
          fun i => q (xs.getD i d) := by
        funext i
        simp [Function.comp, List.getD_cons_succ]
      rw [h1, ih]
      simp [List.getD_cons_zero]

lemma deriveMoves_length (b : List (Option Mark)) (m : Mark) :
    (deriveMoves b m).length = b.countP (fun v => v = some m) := by
  unfold deriveMoves
  rw [← List.countP_eq_length_filter]
  exact countP_range_getD b (fun v => v = some m) none

lemma deriveMoves_sorted (b : List (Option Mark)) (m : Mark) :
    (deriveMoves b m).Pairwise (· < ·) := by
  unfold deriveMoves
  exact (List.pairwise_lt_range _).filter _

/-- State for the C9 counterexample: a multiplayer TTT session on side
`"a"` (local symbol `X`). -/
def c9SyncState : GameState :=
  { initialState GameName.ttt 0 PlayMode.free OpponentType.player none none with
    side := some Side.a }

/-- Authoritative board carrying four `X` marks; the client derives the
history from it without enforcing the 3-piece cap. -/
def c9SyncEvent : StateEvent :=
  { tttBoard := [some Mark.X, some Mark.X, some Mark.X, some Mark.X,
                 none, none, none, none, none],
    c4Board := [], current := Side.a, timestamp := none }

/-- Claim C9 (counterexample): after an authoritative state sync the local
move history is not bounded by 3 — a server board with four `X` marks
yields a playerMoves history of length 4. -/
theorem ttt_history_cap_violated_by_state_sync :
    ¬ ((onState c9SyncState c9SyncEvent 0).playerMoves.length ≤ 3) := by decide

/-- Claim C9 (amended): after a local or AI placement each side's history
has size at most 3 and lists that side's cells in placement order — the
new cell is appended at the tail, and on a 4th placement the head (the
oldest cell) is dropped; after an authoritative state sync, however, the
histories are recomputed from the server board as the ascending-sorted
list of that side's occupied cells, whose length is the number of that
side's marks on the server board (bounded by 3 only if the server board
itself carries at most 3 marks per side) and whose order is ascending
cell index rather than true placement order. -/
theorem ttt_history_invariant_amended (calcXP : Bool → Int → Int → Int) :
    (∀ (s : GameState) (idx : Nat),
      s.gameState = Phase.playing → s.started = true →
      s.opponentType = OpponentType.ai →
      s.tttCurrentPlayer = playerSymbol s → s.fadingCell = none →
      s.tttBoard.getD idx none = none → s.playerMoves.length < 3 →
      (handleTTTCellClick calcXP s idx).1.playerMoves = s.playerMoves ++ [idx] ∧
      (handleTTTCellClick calcXP s idx).1.playerMoves.length ≤ 3) ∧
    (∀ (s : GameState) (h0 m1 m2 target : Nat), s.playerMoves = [h0, m1, m2] →
      (tttEvictPlace calcXP s h0 target).1.playerMoves = [m1, m2, target]) ∧
    (∀ (t : GameState) (b : List (Option Mark)) (k0 k1 k2 am : Nat),
      (aiEvictPlace calcXP t b [k0, k1, k2] am).opponentMoves = [k1, k2, am]) ∧
    (∀ (s : GameState) (e : StateEvent) (now : Nat), s.game = GameName.ttt →
      (onState s e now).playerMoves = deriveMoves e.tttBoard (playerSymbol s) ∧
      (onState s e now).opponentMoves = deriveMoves e.tttBoard (opponentSymbol s)) ∧
    (∀ (b : List (Option Mark)) (m : Mark),
      (deriveMoves b m).Pairwise (· < ·) ∧
      (deriveMoves b m).length = b.countP (fun v => v = some m)) := by
  refine ⟨?_, ?_, ?_, ?_, ?_⟩
  · intro s idx hplay hst hloc hturn hfade hempty hlt
    have hempty' : s.tttBoard[idx]?.getD none = none := by
      simpa [List.getD_eq_getElem?_getD] using hempty
    have hmain : (handleTTTCellClick calcXP s idx).1.playerMoves =
        s.playerMoves ++ [idx] := by
      unfold handleTTTCellClick
      rw [if_neg (by simp [hplay, hst, hturn, hfade]),
          if_neg (by simp [hst, hturn, hfade, hempty']),
          if_neg (by simp [hloc]),
          if_neg (by omega)]
      dsimp only
      by_cases hw : checkTTTWinner (s.tttBoard.set idx (some (playerSymbol s))) =
          some (playerSymbol s)
      · rw [if_pos hw]
        simp [handleGameEnd_playerMoves]
      · rw [if_neg hw]
    refine ⟨hmain, ?_⟩
    rw [hmain]
    simp
    omega
  · intro s h0 m1 m2 target hmoves
    have h := (tttEvictPlace_fields calcXP s h0 target).2.1
    rw [h, hmoves]
    rfl
  · intro t b k0 k1 k2 am
    exact (aiEvictPlace_fields calcXP t b k0 k1 k2 am).2.1
  · intro s e now hg
    obtain ⟨tb, cb, cur, ts⟩ := e
    cases ts <;> simp [onState, hg]
  · intro b m
    exact ⟨deriveMoves_sorted b m, deriveMoves_length b m⟩

/-- Witness for the amended C9: a first local placement appends the cell
to the empty history, and the history derived from the four-`X` server
board has length 4 — the exact mark count of the board. -/
theorem ttt_history_invariant_amended_witness :
    (handleTTTCellClick zeroXP
        (initialState GameName.ttt 0 PlayMode.free OpponentType.ai none none)
        0).1.playerMoves = [0] ∧
    (deriveMoves c9SyncEvent.tttBoard Mark.X).length =
      c9SyncEvent.tttBoard.countP (fun v => v = some Mark.X) := by
  have h := ttt_history_invariant_amended zeroXP
  refine ⟨?_, (h.2.2.2.2 c9SyncEvent.tttBoard Mark.X).2⟩
  have h1 := (h.1 (initialState GameName.ttt 0 PlayMode.free OpponentType.ai
    none none) 0 rfl rfl rfl rfl rfl (by decide) (by decide)).1
  simpa using h1
